import Mathlib

/-!
Verification of `aiida_backup/backup.py`.

The development shallowly embeds the Python script into Lean:

* Python strings are Lean `String`s; `str.split('/')`, `'/'.join`, `str.strip`,
  `str.split()` and CPython's code-point-lexicographic string comparison are
  re-implemented below as structurally recursive (kernel-computable) functions
  with the same semantics.
* `float(...)` on the decimal tokens occurring in timestamp files is embedded
  as `pyFloat : String → Option ℚ` (a parse failure is `none`, matching the
  `ValueError` raised by CPython).
* Instants of time (`datetime` values, `timezone.now()`, epoch floats) are
  represented as exact rationals counting seconds since the epoch;
  `datetime.timedelta(days=n)` is exactly `86400 * n` seconds and
  `datetime.datetime.fromtimestamp` is the instant at the given epoch value.
* The filesystem is a list of `(path, kind)` entries; `os.path.exists`,
  `os.mkdir`, `os.remove` and the effect of the external `tar cf` invocation
  (create the archive file at the destination path) act on it.  Every
  externally visible action is also recorded in an event trace.
* The node catalog (`QueryBuilder` plus `RepositoryFolder(...).abspath`) is a
  parameter mapping the constructed query to the list of canonical storage
  paths of the returned nodes.
-/

/-- Python blank characters recognised by `str.strip()` / `str.split()`
(ASCII whitespace; the script's timestamp files only contain these). -/
def pyIsSpace (c : Char) : Bool :=
  c = ' ' || c = '\t' || c = '\n' || c = '\r' || c = '\x0b' || c = '\x0c'

/-- Character-level embedding of Python `str.split(sep)` for a one-character
separator: splits at every occurrence of `sep`, keeping empty pieces. -/
def splitOnChar (sep : Char) : List Char → List (List Char)
  | [] => [[]]
  | c :: cs =>
    match splitOnChar sep cs with
    | [] => [[]]
    | g :: gs => if c = sep then [] :: g :: gs else (c :: g) :: gs

/-- Python `path.split('/')`. -/
def pySplitSlash (s : String) : List String :=
  (splitOnChar '/' s.data).map String.mk

/-- Python `'/'.join(parts)`. -/
def joinSlash : List String → String
  | [] => ""
  | [x] => x
  | x :: y :: rest => x ++ "/" ++ joinSlash (y :: rest)

/-- Python slice `l[-k:]` (for `k > 0`): the last `k` elements. -/
def lastK (l : List String) (k : Nat) : List String :=
  l.drop (l.length - k)

/-- First whitespace-delimited token of a line, i.e. Python `line.split()[0]`
(for a line with at least one token). -/
def firstToken (l : String) : String :=
  String.mk ((l.data.dropWhile pyIsSpace).takeWhile (fun c => !pyIsSpace c))

/-- Python truthiness of `line.strip()`: the line contains a non-blank
character. -/
def isNonBlank (l : String) : Bool :=
  !(l.data.dropWhile pyIsSpace).isEmpty

/-- Numeric value of a list of decimal digit characters. -/
def digitsVal (ds : List Char) : Nat :=
  ds.foldl (fun a c => 10 * a + (c.toNat - 48)) 0

/-- Leading run of decimal digits of a character list, and the rest. -/
def spanDigits (cs : List Char) : List Char × List Char :=
  (cs.takeWhile Char.isDigit, cs.dropWhile Char.isDigit)

/-- The exact rational `sign * mantissa * 10 ^ scale`, built with a single
`mkRat` so that it evaluates inside the kernel. -/
def scaledRat (sign : ℤ) (mantissa : ℕ) (scale : ℤ) : ℚ :=
  if 0 ≤ scale then mkRat (sign * mantissa * 10 ^ scale.toNat) 1
  else mkRat (sign * mantissa) (10 ^ (-scale).toNat)

/-- Embedding of CPython `float(token)` on decimal literals
`[sign] (digits [. digits] | . digits) [(e|E) [sign] digits]`, the grammar
exercised by the script's timestamp files; any other string is a parse
failure (`none`, CPython raises `ValueError`).  The exact rational value of
the literal is returned. -/
def pyFloat (s : String) : Option ℚ :=
  let cs := s.data
  let sgn : ℤ × List Char :=
    match cs with
    | '+' :: r => (1, r)
    | '-' :: r => (-1, r)
    | r => (1, r)
  let ip := spanDigits sgn.2
  let fp : List Char × List Char :=
    match ip.2 with
    | '.' :: r => spanDigits r
    | r => ([], r)
  if ip.1.isEmpty && fp.1.isEmpty then none
  else
    let mantissa := digitsVal ip.1 * 10 ^ fp.1.length + digitsVal fp.1
    match fp.2 with
    | [] => some (scaledRat sgn.1 mantissa (-(fp.1.length : ℤ)))
    | c :: r =>
      if c = 'e' || c = 'E' then
        let esgn : ℤ × List Char :=
          match r with
          | '+' :: r2 => (1, r2)
          | '-' :: r2 => (-1, r2)
          | r2 => (1, r2)
        let ed := spanDigits esgn.2
        if ed.1.isEmpty || !ed.2.isEmpty then none
        else
          some (scaledRat sgn.1 mantissa (esgn.1 * digitsVal ed.1 - fp.1.length))
      else none

/-- CPython string comparison on code points, character-list level:
`charsLeB as bs` is `as <= bs` in the lexicographic order. -/
def charsLeB : List Char → List Char → Bool
  | [], _ => true
  | _ :: _, [] => false
  | a :: as, b :: bs =>
    if a.toNat < b.toNat then true
    else if b.toNat < a.toNat then false
    else charsLeB as bs

/-- CPython `a <= b` on strings (lexicographic by code point), as used by
`sorted` on the set of bucket paths. -/
def pyStrLe (a b : String) : Bool :=
  charsLeB a.data b.data

/-- The order relation used for sorting bucket paths. -/
def StrLe (a b : String) : Prop := pyStrLe a b = true

instance : DecidableRel StrLe := fun a b =>
  inferInstanceAs (Decidable (pyStrLe a b = true))

theorem char_eq_of_toNat_eq {a b : Char} (h : a.toNat = b.toNat) : a = b :=
  Char.eq_of_val_eq (UInt32.eq_of_val_eq (Fin.ext h))

theorem charsLeB_total : ∀ as bs : List Char, charsLeB as bs = true ∨ charsLeB bs as = true
  | [], _ => Or.inl rfl
  | _ :: _, [] => Or.inr rfl
  | a :: as, b :: bs => by
    simp only [charsLeB]
    rcases Nat.lt_trichotomy a.toNat b.toNat with h | h | h
    · left; simp [h]
    · have h1 : ¬ a.toNat < b.toNat := by omega
      have h2 : ¬ b.toNat < a.toNat := by omega
      rcases charsLeB_total as bs with ih | ih
      · left; simp [h1, h2, ih]
      · right; simp [h1, h2, ih]
    · right; simp [h, Nat.lt_asymm h]

theorem charsLeB_trans :
    ∀ as bs cs : List Char, charsLeB as bs = true → charsLeB bs cs = true →
      charsLeB as cs = true
  | [], _, _, _, _ => rfl
  | _ :: _, [], _, h, _ => by simp [charsLeB] at h
  | _ :: _, _ :: _, [], _, h => by simp [charsLeB] at h
  | a :: as, b :: bs, c :: cs, h1, h2 => by
    simp only [charsLeB] at h1 h2 ⊢
    by_cases hab : a.toNat < b.toNat
    · by_cases hbc : b.toNat < c.toNat
      · simp [Nat.lt_trans hab hbc]
      · by_cases hcb : c.toNat < b.toNat
        · rw [if_neg hbc, if_pos hcb] at h2
          exact absurd h2 (by simp)
        · have hac : a.toNat < c.toNat := by omega
          simp [hac]
    · by_cases hba : b.toNat < a.toNat
      · rw [if_neg hab, if_pos hba] at h1
        exact absurd h1 (by simp)
      · by_cases hbc : b.toNat < c.toNat
        · have hac : a.toNat < c.toNat := by omega
          simp [hac]
        · by_cases hcb : c.toNat < b.toNat
          · rw [if_neg hbc, if_pos hcb] at h2
            exact absurd h2 (by simp)
          · have hac : ¬ a.toNat < c.toNat := by omega
            have hca : ¬ c.toNat < a.toNat := by omega
            rw [if_neg hac, if_neg hca]
            rw [if_neg hab, if_neg hba] at h1
            rw [if_neg hbc, if_neg hcb] at h2
            exact charsLeB_trans as bs cs h1 h2

theorem charsLeB_antisymm :
    ∀ as bs : List Char, charsLeB as bs = true → charsLeB bs as = true → as = bs
  | [], [], _, _ => rfl
  | _ :: _, [], h, _ => by simp [charsLeB] at h
  | [], _ :: _, _, h => by simp [charsLeB] at h
  | a :: as, b :: bs, h1, h2 => by
    simp only [charsLeB] at h1 h2
    by_cases hab : a.toNat < b.toNat
    · have hba : ¬ b.toNat < a.toNat := by omega
      rw [if_neg hba, if_pos hab] at h2
      exact absurd h2 (by simp)
    · by_cases hba : b.toNat < a.toNat
      · rw [if_neg hab, if_pos hba] at h1
        exact absurd h1 (by simp)
      · have hn : a.toNat = b.toNat := by omega
        rw [if_neg hab, if_neg hba] at h1
        rw [if_neg hba, if_neg hab] at h2
        rw [char_eq_of_toNat_eq hn, charsLeB_antisymm as bs h1 h2]

theorem string_data_inj {a b : String} (h : a.data = b.data) : a = b :=
  congrArg String.mk h

instance : IsTotal String StrLe :=
  ⟨fun a b => charsLeB_total a.data b.data⟩

instance : IsTrans String StrLe :=
  ⟨fun a b c => charsLeB_trans a.data b.data c.data⟩

instance : IsAntisymm String StrLe :=
  ⟨fun a b h1 h2 => string_data_inj (charsLeB_antisymm a.data b.data h1 h2)⟩

/-- `path_LevelUp` of a storage path: `'/'.join(path.split('/')[:-1])`, the
bucket path of a node (source: `get_paths_to_tar`, line 81). -/
def path_LevelUp (path : String) : String :=
  joinSlash (pySplitSlash path).dropLast

/-- Embedding of `get_paths_to_tar`: the query result is the list of canonical
storage paths of the returned nodes (`RepositoryFolder(section='node',
uuid=node.uuid).abspath` for each node); each is stripped of its last path
segment and accumulated into a set, returned as a sorted list
(`sorted(paths_to_tar)`). -/
def get_paths_to_tar (nodePaths : List String) : List String :=
  ((nodePaths.map path_LevelUp).dedup).insertionSort StrLe

example : pySplitSlash "/repo/node/24/64/a" = ["", "repo", "node", "24", "64", "a"] := by decide

example : path_LevelUp "/repo/node/24/64/a" = "/repo/node/24/64" := by decide

example :
    get_paths_to_tar ["/repo/node/24/64/a", "/repo/node/24/64/b", "/repo/node/31/02/c"]
      = ["/repo/node/24/64", "/repo/node/31/02"] := by decide

/-- Errors the script can raise before a query is returned: `ValueError`
(from `float(...)` or the `past_days < 1` check), `UnboundLocalError`
(`timestamp_from` never assigned because the file has no non-blank line) and
the final `RuntimeError`. -/
inductive PyErr where
  | valueError
  | unboundLocalError
  | runtimeError
deriving DecidableEq

deriving instance DecidableEq for Except

/-- The query constructed by `get_query`: all nodes, nodes with id in a list,
or nodes whose date field (the `filters` dictionary key, `None` when
`query_date_mode` is `None`) is `>=` a bound (an instant, as epoch
seconds). -/
inductive Query where
  | allNodes
  | byIds (ids : List Int)
  | byDate (field : Option String) (bound : ℚ)
deriving DecidableEq

/-- The loop `for line in f.readlines(): if line.strip(): timestamp_from =
float(line.split()[0])` of `get_query`, threading the last value assigned to
`timestamp_from` (`none` while unassigned); a failing `float(...)`
raises `ValueError` at that line. -/
def parseTSLines : List String → Option ℚ → Except PyErr (Option ℚ)
  | [], acc => .ok acc
  | l :: ls, acc =>
    if isNonBlank l then
      match pyFloat (firstToken l) with
      | some v => parseTSLines ls (some v)
      | none => .error .valueError
    else
      parseTSLines ls acc

/-- Reading `timestamp_from` out of the marker file's lines: the loop above
followed by the use of `timestamp_from`, which raises `UnboundLocalError`
when no non-blank line assigned it. -/
def parseTimestampFile (lines : List String) : Except PyErr ℚ :=
  match parseTSLines lines none with
  | .ok (some v) => .ok v
  | .ok none => .error .unboundLocalError
  | .error e => .error e

/-- Python truthiness of the `node_ids` argument (`None` and `[]` are
falsy). -/
def truthyList (node_ids : Option (List Int)) : Bool :=
  match node_ids with
  | some (_ :: _) => true
  | _ => false

/-- Embedding of `get_query`.  The `timestamp` path argument together with
the opened file's lines is embedded as `tsLines` (`some lines` when a truthy
path was given); `timezone.now()` is the parameter `now`;
`datetime.timedelta(days=past_days)` is `86400 * past_days` seconds and
`datetime.datetime.fromtimestamp` maps an epoch value to the instant it
denotes.  The branch order (`full`, `node_ids`, `timestamp`, `past_days`)
and every error follow the source. -/
def get_query (full : Bool) (node_ids : Option (List Int)) (past_days : Option Int)
    (tsLines : Option (List String)) (query_date_mode : Option String) (now : ℚ) :
    Except PyErr Query :=
  if full then .ok .allNodes
  else if truthyList node_ids then .ok (.byIds (node_ids.getD []))
  else
    match tsLines with
    | some lines =>
      match parseTimestampFile lines with
      | .ok ts => .ok (.byDate query_date_mode ts)
      | .error e => .error e
    | none =>
      match past_days with
      | some n =>
        if n < 1 then .error .valueError
        else .ok (.byDate query_date_mode (now - 86400 * (n : ℚ)))
      | none => .error .runtimeError

/-- Last non-blank line of a file, the line the specification says supplies
the timestamp. -/
def lastNonBlank : List String → Option String
  | [] => none
  | l :: ls =>
    match lastNonBlank ls with
    | some r => some r
    | none => if isNonBlank l then some l else none

example : parseTimestampFile ["1700000000.0   # note\n"] = .ok 1700000000 := by decide
example : parseTimestampFile ["abc\n", "1.0\n"] = .error .valueError := by decide
example : parseTimestampFile ["  \n", "\n"] = .error .unboundLocalError := by decide
example : parseTimestampFile ["1.0\n", "2.5\n"] = .ok (mkRat 5 2) := by decide
example : pyFloat "1e3" = some 1000 := by decide
example : pyFloat "-2.5e-1" = some (mkRat (-1) 4) := by decide
example : pyFloat "" = none := by decide
example : pyFloat "." = none := by decide
example : pyFloat "5." = some 5 := by decide
example : pyFloat ".5" = some (mkRat 1 2) := by decide
example : pyFloat "1e" = none := by decide
example : pyFloat "12a" = none := by decide

/-- Kind of a filesystem entry; `mkdir`'s `os.path.exists` check does not
distinguish them. -/
inductive EntryKind where
  | file
  | dir
deriving DecidableEq

/-- The filesystem: the set of existing entries, as a list of
`(path, kind)` pairs (later operations prepend). -/
abbrev FS := List (String × EntryKind)

/-- Trace of externally visible actions of a run: a raw `os.mkdir`, an
`os.remove`, an `os.system('tar cf ...')` invocation, a `timezone.now()`
capture, the catalog query execution (`query.all()`), and the append to the
timestamp marker file. -/
inductive Ev where
  | mkdirRaw (d : String)
  | removeFile (f : String)
  | systemCmd (c : String)
  | captureTime (t : ℚ)
  | queryAll
  | markerAppend (line : String)
deriving DecidableEq

/-- `os.path.exists`: some entry (of either kind) exists at the path. -/
def existsEntry (p : String) (fs : FS) : Bool :=
  fs.any (fun e => e.1 == p)

/-- Embedding of the script's `mkdir` helper (source lines 18-27): return
unchanged if `os.path.exists(dirname)`, otherwise call `os.mkdir`. -/
def mkdir (dirname : String) (fs : FS) : FS × List Ev :=
  if existsEntry dirname fs then (fs, [])
  else ((dirname, EntryKind.dir) :: fs, [Ev.mkdirRaw dirname])

/-- `os.remove(f)`: drop the entry at `f`. -/
def removeEntries (f : String) (fs : FS) : FS :=
  fs.filter (fun e => e.1 != f)

/-- `'/'.join(LOC + splitted_path[-3:-1])`: the destination subdirectory for
a bucket path. -/
def tarDirName (location path : String) : String :=
  joinSlash (location :: (lastK (pySplitSlash path) 3).dropLast)

/-- `'/'.join(LOC + splitted_path[-3:]) + '.tar'`: the destination archive
file for a bucket path. -/
def tarFileName (location path : String) : String :=
  joinSlash (location :: lastK (pySplitSlash path) 3) ++ ".tar"

/-- `' '.join(['--exclude="{}"'.format(f) for f in ignore_files])`. -/
def ignorePattern (ignore_files : List String) : String :=
  String.intercalate " " (ignore_files.map (fun f => "--exclude=\"" ++ f ++ "\""))

/-- The `tar cf {} -C {} {} {}` command string built in the loop body. -/
def tarCmd (location ignore_pattern path : String) : String :=
  "tar cf " ++ tarFileName location path ++ " -C "
    ++ joinSlash (pySplitSlash path).dropLast ++ " "
    ++ (pySplitSlash path).getLastD "" ++ " " ++ ignore_pattern

/-- One iteration of the `for path in paths_to_tar` loop of `tar_paths`:
ensure the destination subdirectory exists, delete a pre-existing archive,
and invoke the external archiver (`os.system`, whose effect is to create the
archive file); under `dry_run` all three are skipped. -/
def tar_one (location ignore_pattern : String) (dry_run : Bool)
    (st : FS × List Ev) (path : String) : FS × List Ev :=
  let st1 :=
    if dry_run then st
    else
      let r := mkdir (tarDirName location path) st.1
      (r.1, st.2 ++ r.2)
  let f := tarFileName location path
  let st2 :=
    if existsEntry f st1.1 && !dry_run then
      (removeEntries f st1.1, st1.2 ++ [Ev.removeFile f])
    else st1
  if dry_run then st2
  else
    ((f, EntryKind.file) :: st2.1,
      st2.2 ++ [Ev.systemCmd (tarCmd location ignore_pattern path)])

/-- Embedding of `tar_paths` (source lines 88-121): create `location` and
`location/node` unless `dry_run`, then process every bucket path in order.
The `verbosity` parameter only controls printing and is omitted. -/
def tar_paths (paths_to_tar : List String) (location : String)
    (ignore_files : List String) (dry_run : Bool) (fs : FS) : FS × List Ev :=
  let st0 : FS × List Ev :=
    if dry_run then (fs, [])
    else
      let r1 := mkdir location fs
      let r2 := mkdir (joinSlash [location, "node"]) r1.1
      (r2.1, r1.2 ++ r2.2)
  paths_to_tar.foldl (tar_one location (ignorePattern ignore_files) dry_run) st0

/-- The resolver-then-archiver pipeline of `__main__`: the bucket paths fed
to `tar_paths` are `get_paths_to_tar`'s output; the first component records
which bucket paths were resolved. -/
def resolve_and_tar (nodePaths : List String) (location : String)
    (ignore_files : List String) (dry_run : Bool) (fs : FS) :
    List String × FS × List Ev :=
  let paths := get_paths_to_tar nodePaths
  let r := tar_paths paths location ignore_files dry_run fs
  (paths, r.1, r.2)

example : tarFileName "/dest" "/repo/node/24/64" = "/dest/node/24/64.tar" := by decide
example : tarDirName "/dest" "/repo/node/24/64" = "/dest/node/24" := by decide
example :
    tarCmd "/dest" (ignorePattern []) "/repo/node/24/64"
      = "tar cf /dest/node/24/64.tar -C /repo/node/24 64 " := by decide

/-- The command-line arguments after `parser.parse_args()`: `location`
(positional), `--ignore-files` (default `[]`), `--dry-run`, the required
mutually exclusive selection group `-n`, `-p`, `-f`, `-t` (`none`/`false` meaning
"option not given"), and the mutually exclusive `--mtime`,
`--ctime` flags.  `--verbosity` only controls printing and is
omitted. -/
structure Args where
  location : String
  ignore_files : List String
  dry_run : Bool
  node_ids : Option (List Int)
  past_days : Option Int
  full : Bool
  timestamp : Option String
  mtime : Bool
  ctime : Bool
deriving DecidableEq

/-- Number of selection-mode options supplied among `-n`, `-p`, `-f`,
`-t`; `argparse`'s required mutually exclusive group demands exactly
one. -/
def selCount (a : Args) : Nat :=
  (if a.node_ids.isSome then 1 else 0) + (if a.past_days.isSome then 1 else 0)
    + (if a.full then 1 else 0) + (if a.timestamp.isSome then 1 else 0)

/-- Python truthiness of `parsed.timestamp` (`None` and the empty string are
falsy). -/
def timestampTruthy (a : Args) : Bool :=
  match a.timestamp with
  | none => false
  | some s => !(s == "")

/-- Outcome of a run of the script: the process exit status (`2` for an
`argparse` usage error, `1` for an uncaught exception, `0` for completion),
the trace of externally visible actions, the final filesystem, and the final
content of the timestamp marker file when one was appended. -/
structure MainOut where
  exitCode : Nat
  events : List Ev
  fs : FS
  marker : Option (List String)
deriving DecidableEq

/-- `time.mktime(current_time.timetuple())`: `timetuple` drops fractional
seconds, so the recorded epoch value is the floor of the captured instant
(in whole seconds). -/
def py_mktime (t : ℚ) : ℤ :=
  Int.fdiv t.num t.den

/-- Python `str` of the integral float returned by `time.mktime`. -/
def pyFloatStr (z : ℤ) : String :=
  toString z ++ ".0"

/-- Python `str(current_time)` for the captured `datetime`; the script only
interpolates it into the marker line's trailing comment, which the parser
ignores, so its exact shape is immaterial; it is embedded as a readable
rendering of the instant. -/
def pyDatetimeStr (t : ℚ) : String :=
  "datetime at epoch " ++ toString t.num ++ "/" ++ toString t.den

/-- The line written by `f.write('{}     #  {}\n'.format(current_timestamp,
current_time))`. -/
def markerLine (tsStr humanStr : String) : String :=
  tsStr ++ "     #  " ++ humanStr ++ "\n"

/-- The Timestamp Recorder: `open(parsed.timestamp, 'a')` (creating the file
if absent, so an absent file is the empty line list) followed by the
`f.write` above — one appended line, prior lines untouched. -/
def recordTimestamp (fileLines : List String) (tsStr humanStr : String) : List String :=
  fileLines ++ [markerLine tsStr humanStr]

/-- Embedding of the `__main__` block.  `clock n` is the value
`timezone.now()` would return after `n` recorded events (the run-start
capture happens before any), `catalog` maps the constructed query to the
canonical storage paths of the nodes it returns (`query.all()` plus
`RepositoryFolder(...).abspath`), and `readFile` gives the lines of the
timestamp marker file at run start.  Steps, in source order: `argparse`
validation (usage errors exit with status 2), the `--mtime`/`--ctime`
requirement for date-windowed runs (uncaught `Exception`, status 1),
run-start time capture for timestamp mode, `get_query` (uncaught errors,
status 1), `get_paths_to_tar` (executing the query), `tar_paths`, and the
final marker append for timestamp mode. -/
def main_run (clock : Nat → ℚ) (catalog : Query → List String)
    (readFile : String → List String) (a : Args) (fs : FS) : MainOut :=
  if !(selCount a == 1) || (a.mtime && a.ctime) then
    { exitCode := 2, events := [], fs := fs, marker := none }
  else
    let timeWindowed := a.past_days.isSome || timestampTruthy a
    if timeWindowed && !a.mtime && !a.ctime then
      { exitCode := 1, events := [], fs := fs, marker := none }
    else
      let query_date_mode : Option String :=
        if timeWindowed then (if a.mtime then some "mtime" else some "ctime")
        else none
      let tsMode := timestampTruthy a
      let tsPath := a.timestamp.getD ""
      let current_time : ℚ := clock 0
      let evs0 : List Ev := if tsMode then [Ev.captureTime current_time] else []
      match get_query a.full a.node_ids a.past_days
          (if tsMode then some (readFile tsPath) else none) query_date_mode
          (clock evs0.length) with
      | .error _ => { exitCode := 1, events := evs0, fs := fs, marker := none }
      | .ok q =>
        let evs1 := evs0 ++ [Ev.queryAll]
        let paths := get_paths_to_tar (catalog q)
        let r := tar_paths paths a.location a.ignore_files a.dry_run fs
        let evs2 := evs1 ++ r.2
        if tsMode then
          let tsStr := pyFloatStr (py_mktime current_time)
          let humanStr := pyDatetimeStr current_time
          { exitCode := 0,
            events := evs2 ++ [Ev.markerAppend (markerLine tsStr humanStr)],
            fs := r.1,
            marker := some (recordTimestamp (readFile tsPath) tsStr humanStr) }
        else
          { exitCode := 0, events := evs2, fs := r.1, marker := none }

example :
    (main_run (fun _ => 100) (fun _ => ["/r/node/aa/bb/u1"]) (fun _ => ["1.5\n"])
      { location := "/dest", ignore_files := [], dry_run := false,
        node_ids := none, past_days := none, full := false,
        timestamp := some "/ts", mtime := true, ctime := false } []).exitCode = 0 := by
  decide

example :
    (main_run (fun _ => 100) (fun _ => []) (fun _ => [])
      { location := "/dest", ignore_files := [], dry_run := false,
        node_ids := none, past_days := none, full := false,
        timestamp := none, mtime := false, ctime := false } []).exitCode = 2 := by
  decide

example :
    (main_run (fun _ => 100) (fun _ => []) (fun _ => [])
      { location := "/dest", ignore_files := [], dry_run := false,
        node_ids := none, past_days := some 5, full := false,
        timestamp := none, mtime := false, ctime := false } []).exitCode = 1 := by
  decide

theorem tar_one_dry (location ignore_pattern : String) (st : FS × List Ev) (path : String) :
    tar_one location ignore_pattern true st path = st := by
  simp [tar_one]

theorem foldl_tar_one_dry (location ignore_pattern : String) :
    ∀ (ps : List String) (st : FS × List Ev),
      ps.foldl (tar_one location ignore_pattern true) st = st
  | [], _ => rfl
  | p :: ps, st => by
    rw [List.foldl_cons, tar_one_dry, foldl_tar_one_dry location ignore_pattern ps st]

/-- C10: for every path, the `mkdir` helper returns without raising and
without modifying the filesystem whenever any entry already exists at that
path — of either kind, a regular file included, since `os.path.exists` does
not inspect the entry kind — and it calls the raw `os.mkdir` exactly when
nothing exists at the path. -/
theorem C10_mkdir_exists_noop (p : String) (fs : FS) :
    (existsEntry p fs = true → mkdir p fs = (fs, []))
  ∧ (existsEntry p fs = false → mkdir p fs = ((p, EntryKind.dir) :: fs, [Ev.mkdirRaw p])) := by
  constructor <;> intro h <;> simp [mkdir, h]

/-- Witness for C10 at a filesystem whose entry at the path is a regular
file: the helper still returns unchanged without attempting creation, and on
a path with no entry it creates a directory. -/
theorem C10_mkdir_exists_noop_witness :
    mkdir "/x" [("/x", EntryKind.file)] = ([("/x", EntryKind.file)], [])
  ∧ mkdir "/y" [("/x", EntryKind.file)]
      = ([("/y", EntryKind.dir), ("/x", EntryKind.file)], [Ev.mkdirRaw "/y"]) :=
  ⟨(C10_mkdir_exists_noop "/x" [("/x", EntryKind.file)]).1 (by decide),
   (C10_mkdir_exists_noop "/y" [("/x", EntryKind.file)]).2 (by decide)⟩

/-- C5: with only `past_days` selected, `get_query` raises `ValueError`
before constructing any query when `past_days < 1`, and otherwise returns
the query filtering the caller-chosen date field with `>=` against exactly
`now - past_days` days; in particular `past_days = 0` and `past_days = -3`
both raise. -/
theorem C5_past_days (n : ℤ) (now : ℚ) (mode : Option String) :
    get_query false none (some n) none mode now
      = (if n < 1 then .error .valueError
         else .ok (.byDate mode (now - 86400 * (n : ℚ))))
  ∧ get_query false none (some 0) none mode now = .error .valueError
  ∧ get_query false none (some (-3)) none mode now = .error .valueError :=
  ⟨rfl, rfl, rfl⟩

/-- C3: under `dry_run` the archiver phase performs no filesystem mutation
and emits no event at all (no directory creation, no archive deletion, no
archiver invocation), on every input; and the bucket-path list the resolver
hands to it is the same as in a non-dry run of the same input, since
`get_paths_to_tar` does not depend on the flag. -/
theorem C3_dry_run (nodePaths ps : List String) (location : String)
    (ign : List String) (fs : FS) :
    tar_paths ps location ign true fs = (fs, [])
  ∧ (resolve_and_tar nodePaths location ign true fs).2.1 = fs
  ∧ (resolve_and_tar nodePaths location ign true fs).2.2 = ([] : List Ev)
  ∧ (resolve_and_tar nodePaths location ign true fs).1
      = (resolve_and_tar nodePaths location ign false fs).1 := by
  have h : ∀ qs : List String, tar_paths qs location ign true fs = (fs, []) := fun qs =>
    foldl_tar_one_dry location (ignorePattern ign) qs (fs, [])
  refine ⟨h ps, ?_, ?_, rfl⟩
  · show (tar_paths (get_paths_to_tar nodePaths) location ign true fs).1 = fs
    rw [h]
  · show (tar_paths (get_paths_to_tar nodePaths) location ign true fs).2 = []
    rw [h]

/-- C1: for every query result, `get_paths_to_tar` returns a sequence that
is sorted in CPython's lexicographic string order, duplicate-free, whose
members are exactly the bucket paths (storage paths with the last segment
dropped) of the input, whose length is the number `M` of distinct bucket
paths, and which is invariant under permuting the order in which the catalog
returned the nodes. -/
theorem C1_get_paths_to_tar (nodePaths : List String) :
    (get_paths_to_tar nodePaths).Sorted StrLe
  ∧ (get_paths_to_tar nodePaths).Nodup
  ∧ (∀ p, p ∈ get_paths_to_tar nodePaths ↔ ∃ q ∈ nodePaths, path_LevelUp q = p)
  ∧ (get_paths_to_tar nodePaths).length = (nodePaths.map path_LevelUp).toFinset.card
  ∧ (∀ nodePaths2 : List String, nodePaths2.Perm nodePaths →
      get_paths_to_tar nodePaths2 = get_paths_to_tar nodePaths) := by
  have hperm : ∀ l : List String, (get_paths_to_tar l).Perm (l.map path_LevelUp).dedup :=
    fun l => List.perm_insertionSort StrLe _
  have hsorted : ∀ l : List String, (get_paths_to_tar l).Sorted StrLe :=
    fun l => List.sorted_insertionSort StrLe _
  refine ⟨hsorted _, ?_, ?_, ?_, ?_⟩
  · exact ((hperm _).nodup_iff).mpr (List.nodup_dedup _)
  · intro p
    rw [(hperm _).mem_iff, List.mem_dedup, List.mem_map]
  · rw [(hperm _).length_eq, List.card_toFinset]
  · intro l2 h2
    refine List.eq_of_perm_of_sorted ?_ (hsorted l2) (hsorted nodePaths)
    exact (hperm l2).trans (((h2.map path_LevelUp).dedup).trans (hperm nodePaths).symm)

/-- Witness for C1: a concrete permutation of three node paths sharing two
bucket prefixes gives the same resolver output. -/
theorem C1_get_paths_to_tar_witness :
    (["/r/b/x", "/r/a/y", "/r/b/z"] : List String).Perm ["/r/a/y", "/r/b/z", "/r/b/x"]
  ∧ get_paths_to_tar ["/r/b/x", "/r/a/y", "/r/b/z"]
      = get_paths_to_tar ["/r/a/y", "/r/b/z", "/r/b/x"] :=
  ⟨by decide,
   (C1_get_paths_to_tar ["/r/a/y", "/r/b/z", "/r/b/x"]).2.2.2.2
     ["/r/b/x", "/r/a/y", "/r/b/z"] (by decide)⟩

/-- C7: the Timestamp Recorder appends exactly one line of the form
`"<epoch-float>     #  <human-readable time>\n"`, leaving every prior line in
place (an absent file is the empty line list, so it is created); and reading
a marker file whose last line is `"1700000000.0   # note\n"` — whether
written literally or produced by the recorder after earlier runs — yields a
query whose lower bound is exactly the instant at epoch `1700000000.0`, the
trailing comment being ignored by the parser. -/
theorem C7_marker_round_trip (lines : List String) (tsStr humanStr : String) :
    (recordTimestamp lines tsStr humanStr).take lines.length = lines
  ∧ (recordTimestamp lines tsStr humanStr).length = lines.length + 1
  ∧ (recordTimestamp lines tsStr humanStr).getLast? = some (markerLine tsStr humanStr)
  ∧ markerLine tsStr humanStr = tsStr ++ "     #  " ++ humanStr ++ "\n"
  ∧ get_query false none none (some ["1700000000.0   # note\n"]) (some "mtime") 0
      = .ok (.byDate (some "mtime") 1700000000)
  ∧ get_query false none none
      (some (recordTimestamp ["123.5   # earlier run\n"] "1700000000.0"
        "example human-readable time")) (some "mtime") 0
      = .ok (.byDate (some "mtime") 1700000000) := by
  refine ⟨?_, ?_, ?_, rfl, by decide, by decide⟩
  · show (lines ++ [markerLine tsStr humanStr]).take lines.length = lines
    exact List.take_left lines _
  · simp [recordTimestamp]
  · show (lines ++ [markerLine tsStr humanStr]).getLast? = some (markerLine tsStr humanStr)
    exact List.getLast?_concat lines

theorem parseTSLines_all_ok :
    ∀ (lines : List String) (acc : Option ℚ),
      (∀ l ∈ lines, isNonBlank l = true → (pyFloat (firstToken l)).isSome = true) →
      parseTSLines lines acc
        = .ok (match lastNonBlank lines with
               | none => acc
               | some l => pyFloat (firstToken l))
  | [], _, _ => rfl
  | l :: ls, acc, h => by
    have hrest := fun x hx => h x (List.mem_cons_of_mem _ hx)
    by_cases hb : isNonBlank l = true
    · have hs := h l (List.mem_cons_self l ls) hb
      obtain ⟨v, hv⟩ := Option.isSome_iff_exists.mp hs
      simp only [parseTSLines, if_pos hb, hv]
      rw [parseTSLines_all_ok ls (some v) hrest]
      cases hL : lastNonBlank ls with
      | none => simp [lastNonBlank, hL, hb, hv]
      | some r => simp [lastNonBlank, hL]
    · simp only [parseTSLines, if_neg hb]
      rw [parseTSLines_all_ok ls acc hrest]
      cases hL : lastNonBlank ls with
      | none => simp [lastNonBlank, hL, hb]
      | some r => simp [lastNonBlank, hL]

theorem parseTSLines_err :
    ∀ (lines : List String) (acc : Option ℚ),
      (∃ l ∈ lines, isNonBlank l = true ∧ pyFloat (firstToken l) = none) →
      parseTSLines lines acc = .error .valueError
  | [], _, h => absurd h (by simp)
  | l :: ls, acc, h => by
    simp only [parseTSLines]
    by_cases hb : isNonBlank l = true
    · rw [if_pos hb]
      cases hv : pyFloat (firstToken l) with
      | none => rfl
      | some v =>
        apply parseTSLines_err ls (some v)
        obtain ⟨x, hx, hxb, hxn⟩ := h
        rcases List.mem_cons.mp hx with rfl | hx2
        · rw [hv] at hxn; exact absurd hxn (by simp)
        · exact ⟨x, hx2, hxb, hxn⟩
    · rw [if_neg hb]
      apply parseTSLines_err ls acc
      obtain ⟨x, hx, hxb, hxn⟩ := h
      rcases List.mem_cons.mp hx with rfl | hx2
      · exact absurd hxb hb
      · exact ⟨x, hx2, hxb, hxn⟩

/-- C6 (amended): `get_query` in timestamp mode parses the first
whitespace-delimited token of EVERY non-blank line as a float, keeping the
value of the last one; when all non-blank lines parse, the query bound is
the last non-blank line's value; it fails with `UnboundLocalError` when no
non-blank line exists, and with `ValueError` as soon as ANY non-blank line's
first token — not only the last one's — fails to parse, in all cases before
any query is returned. -/
theorem C6_timestamp_parse (lines : List String) (mode : Option String) (now : ℚ) :
    ((∀ l ∈ lines, isNonBlank l = true → (pyFloat (firstToken l)).isSome = true) →
        (lastNonBlank lines = none →
          get_query false none none (some lines) mode now = .error .unboundLocalError)
      ∧ (∀ l v, lastNonBlank lines = some l → pyFloat (firstToken l) = some v →
          get_query false none none (some lines) mode now = .ok (.byDate mode v)))
  ∧ ((∃ l ∈ lines, isNonBlank l = true ∧ pyFloat (firstToken l) = none) →
      get_query false none none (some lines) mode now = .error .valueError) := by
  have hq : get_query false none none (some lines) mode now
      = (match parseTimestampFile lines with
         | .ok ts => .ok (.byDate mode ts)
         | .error e => .error e) := rfl
  constructor
  · intro hall
    have hps := parseTSLines_all_ok lines none hall
    constructor
    · intro hnone
      rw [hnone] at hps
      have hp : parseTimestampFile lines = .error .unboundLocalError := by
        simp [parseTimestampFile, hps]
      rw [hq, hp]
    · intro l v hl hv
      rw [hl] at hps
      have hps2 : parseTSLines lines none = .ok (pyFloat (firstToken l)) := by
        simpa using hps
      rw [hv] at hps2
      have hp : parseTimestampFile lines = .ok v := by
        simp [parseTimestampFile, hps2]
      rw [hq, hp]
  · intro hex
    have hps := parseTSLines_err lines none hex
    have hp : parseTimestampFile lines = .error .valueError := by
      simp [parseTimestampFile, hps]
    rw [hq, hp]

/-- Counterexample to C6 as stated: in the file whose lines are
`"abc\n", "1.0\n"` the last non-blank line's first token parses as the float
`1.0`, so the claim says a query bounded at epoch `1.0` is constructed — but
the code applies `float` to every non-blank line and raises `ValueError` on
the earlier line `"abc\n"`, constructing no query. -/
theorem C6_counterexample :
    lastNonBlank ["abc\n", "1.0\n"] = some "1.0\n"
  ∧ isNonBlank "1.0\n" = true
  ∧ pyFloat (firstToken "1.0\n") = some 1
  ∧ get_query false none none (some ["abc\n", "1.0\n"]) (some "mtime") 0
      = .error .valueError := by
  refine ⟨by decide, by decide, by decide, by decide⟩

/-- Witness for C6 (amended), applying it to a file with only blank lines,
a well-formed file, and a file with an unparsable line. -/
theorem C6_timestamp_parse_witness :
    get_query false none none (some [" \n"]) (some "mtime") 0
      = .error .unboundLocalError
  ∧ get_query false none none (some ["1.5\n"]) (some "mtime") 0
      = .ok (.byDate (some "mtime") (mkRat 3 2))
  ∧ get_query false none none (some ["abc\n"]) (some "mtime") 0
      = .error .valueError :=
  ⟨((C6_timestamp_parse [" \n"] (some "mtime") 0).1 (by decide)).1 (by decide),
   ((C6_timestamp_parse ["1.5\n"] (some "mtime") 0).1 (by decide)).2 "1.5\n" (mkRat 3 2)
     (by decide) (by decide),
   (C6_timestamp_parse ["abc\n"] (some "mtime") 0).2 (by decide)⟩

theorem splitOnChar_ne_nil (sep : Char) : ∀ cs : List Char, splitOnChar sep cs ≠ []
  | [] => by simp [splitOnChar]
  | c :: cs => by
    simp only [splitOnChar]
    cases h : splitOnChar sep cs with
    | nil => simp
    | cons g gs => by_cases hc : c = sep <;> simp [hc]

theorem pySplitSlash_ne_nil (s : String) : pySplitSlash s ≠ [] := by
  unfold pySplitSlash
  intro h
  exact splitOnChar_ne_nil '/' s.data (List.map_eq_nil_iff.mp h)

theorem lastK_ne_nil {l : List String} (h : l ≠ []) (k : Nat) (hk : 0 < k) :
    lastK l k ≠ [] := by
  have h1 : 0 < l.length := List.length_pos.mpr h
  have h2 : (lastK l k).length = l.length - (l.length - k) := List.length_drop _ _
  intro he
  rw [he] at h2
  simp only [List.length_nil] at h2
  omega

theorem joinSlash_append_singleton :
    ∀ (l : List String) (x : String), l ≠ [] →
      joinSlash (l ++ [x]) = joinSlash l ++ "/" ++ x
  | [], _, h => absurd rfl h
  | [a], x, _ => rfl
  | a :: b :: rest, x, _ => by
    have ih := joinSlash_append_singleton (b :: rest) x (by simp)
    show a ++ "/" ++ joinSlash ((b :: rest) ++ [x]) = a ++ "/" ++ joinSlash (b :: rest) ++ "/" ++ x
    rw [ih]
    simp [String.append_assoc]

theorem tarFileName_decomp (location path : String) :
    ∃ lastSeg : String,
      tarFileName location path
        = tarDirName location path ++ "/" ++ lastSeg ++ ".tar" := by
  have hsp : pySplitSlash path ≠ [] := pySplitSlash_ne_nil path
  have hk : lastK (pySplitSlash path) 3 ≠ [] := lastK_ne_nil hsp 3 (by omega)
  refine ⟨(lastK (pySplitSlash path) 3).getLast hk, ?_⟩
  unfold tarFileName tarDirName
  conv_lhs => rw [← List.dropLast_append_getLast hk]
  rw [show location :: ((lastK (pySplitSlash path) 3).dropLast
        ++ [(lastK (pySplitSlash path) 3).getLast hk])
      = (location :: (lastK (pySplitSlash path) 3).dropLast)
        ++ [(lastK (pySplitSlash path) 3).getLast hk] from rfl]
  rw [joinSlash_append_singleton _ _ (by simp)]

theorem tarFileName_ne_tarDirName (location path : String) :
    tarFileName location path ≠ tarDirName location path := by
  obtain ⟨lastSeg, h⟩ := tarFileName_decomp location path
  intro he
  have hlen := congrArg String.length he
  rw [h] at hlen
  simp only [String.length_append] at hlen
  have h1 : ("/" : String).length = 1 := rfl
  have h2 : (".tar" : String).length = 4 := rfl
  rw [h1, h2] at hlen
  omega

theorem existsEntry_mkdir_self (d : String) (fs : FS) :
    existsEntry d (mkdir d fs).1 = true := by
  unfold mkdir
  by_cases h : existsEntry d fs = true
  · rw [if_pos h]; exact h
  · rw [if_neg h]
    simp [existsEntry]

theorem existsEntry_mkdir_ne (d p : String) (fs : FS) (h : p ≠ d) :
    existsEntry p (mkdir d fs).1 = existsEntry p fs := by
  unfold mkdir
  by_cases hd : existsEntry d fs = true
  · rw [if_pos hd]
  · rw [if_neg hd]
    have hdp : (d == p) = false := beq_eq_false_iff_ne.mpr (fun he => h he.symm)
    simp [existsEntry, List.any_cons, hdp]

theorem existsEntry_removeEntries_ne (f p : String) (fs : FS) (h : p ≠ f) :
    existsEntry p (removeEntries f fs) = existsEntry p fs := by
  induction fs with
  | nil => rfl
  | cons e rest ih =>
    simp only [removeEntries] at ih ⊢
    simp only [existsEntry] at ih ⊢
    rw [List.filter_cons]
    by_cases he : (e.1 != f) = true
    · rw [if_pos he, List.any_cons, List.any_cons]
      rw [ih]
    · have hne : (e.1 != f) = false := by simpa using he
      have hbeq : (e.1 == f) = true := by simpa [bne] using hne
      have hef : e.1 = f := eq_of_beq hbeq
      have hep : (e.1 == p) = false :=
        beq_eq_false_iff_ne.mpr (by rw [hef]; exact fun hx => h hx.symm)
      rw [if_neg (by simp [hne])]
      rw [List.any_cons, hep, Bool.false_or]
      exact ih

theorem removeEntries_idem (f : String) (fs : FS) :
    removeEntries f (removeEntries f fs) = removeEntries f fs := by
  unfold removeEntries
  rw [List.filter_filter]
  simp

theorem removeEntries_of_not_exists (f : String) (fs : FS)
    (h : existsEntry f fs = false) :
    removeEntries f fs = fs := by
  apply List.filter_eq_self.mpr
  intro e he
  simp only [existsEntry, List.any_eq_false] at h
  have := h e he
  simpa using this

/-- Number of filesystem entries at a given path. -/
def countEntries (f : String) (fs : FS) : Nat :=
  (fs.filter (fun e => e.1 == f)).length

theorem countEntries_removeEntries (f : String) (fs : FS) :
    countEntries f (removeEntries f fs) = 0 := by
  unfold countEntries removeEntries
  rw [List.filter_filter]
  have hfalse : ∀ e : String × EntryKind, ((e.1 == f) && (e.1 != f)) = false := by
    intro e; by_cases h : (e.1 == f) = true <;> simp [bne, h]
  simp only [hfalse, List.filter_false, List.length_nil]

theorem mkdir_of_exists (p : String) (fs : FS) (h : existsEntry p fs = true) :
    mkdir p fs = (fs, []) := by
  unfold mkdir
  rw [if_pos h]

theorem tar_one_eq (location ignore_pattern path : String) (st : FS × List Ev) :
    tar_one location ignore_pattern false st path
      = ((tarFileName location path, EntryKind.file)
            :: removeEntries (tarFileName location path)
                 (mkdir (tarDirName location path) st.1).1,
         st.2 ++ (mkdir (tarDirName location path) st.1).2
            ++ (if existsEntry (tarFileName location path) st.1 = true then
                  [Ev.removeFile (tarFileName location path)] else [])
            ++ [Ev.systemCmd (tarCmd location ignore_pattern path)]) := by
  have hne : tarFileName location path ≠ tarDirName location path :=
    tarFileName_ne_tarDirName location path
  have hex : existsEntry (tarFileName location path)
        (mkdir (tarDirName location path) st.1).1
      = existsEntry (tarFileName location path) st.1 :=
    existsEntry_mkdir_ne _ _ _ hne
  by_cases hb : existsEntry (tarFileName location path) st.1 = true
  · simp [tar_one, hex, hb, List.append_assoc]
  · have hb2 : existsEntry (tarFileName location path)
        (mkdir (tarDirName location path) st.1).1 = false := by
      rw [hex]; simpa using hb
    have hrm := removeEntries_of_not_exists _ _ hb2
    simp [tar_one, hex, hb, hb2, hrm, List.append_assoc]

/-- C4: archiving a bucket path with `dry_run` off is create-or-replace and
idempotent: the loop body deletes a pre-existing archive at the derived
destination path before the archiver is invoked (the `removeFile` event
precedes the `systemCmd` event), leaves exactly one archive entry at that
path, and running it a second time over the same bucket deletes and fully
rebuilds the archive, reaching the identical filesystem state — nothing is
merged, appended, or accumulated. -/
theorem C4_archive_idempotent (location ignore_pattern path : String)
    (fs : FS) (evs : List Ev) :
    ((tar_one location ignore_pattern false (fs, evs) path).2
        = evs ++ (mkdir (tarDirName location path) fs).2
            ++ (if existsEntry (tarFileName location path) fs = true then
                  [Ev.removeFile (tarFileName location path)] else [])
            ++ [Ev.systemCmd (tarCmd location ignore_pattern path)])
  ∧ countEntries (tarFileName location path)
      (tar_one location ignore_pattern false (fs, evs) path).1 = 1
  ∧ (tar_one location ignore_pattern false
        ((tar_one location ignore_pattern false (fs, evs) path).1, []) path).2
      = [Ev.removeFile (tarFileName location path),
         Ev.systemCmd (tarCmd location ignore_pattern path)]
  ∧ (tar_one location ignore_pattern false
        ((tar_one location ignore_pattern false (fs, evs) path).1, []) path).1
      = (tar_one location ignore_pattern false (fs, evs) path).1 := by
  have hne : tarFileName location path ≠ tarDirName location path :=
    tarFileName_ne_tarDirName location path
  set f := tarFileName location path with hf
  set d := tarDirName location path with hd
  have h1 := tar_one_eq location ignore_pattern path (fs, evs)
  have hst1 : (tar_one location ignore_pattern false (fs, evs) path).1
      = (f, EntryKind.file) :: removeEntries f (mkdir d fs).1 := by
    rw [h1]
  have hexf : existsEntry f ((f, EntryKind.file) :: removeEntries f (mkdir d fs).1)
      = true := by
    simp [existsEntry]
  have hexd : existsEntry d ((f, EntryKind.file) :: removeEntries f (mkdir d fs).1)
      = true := by
    have hfd : (f == d) = false := beq_eq_false_iff_ne.mpr hne
    simp only [existsEntry, List.any_cons, hfd, Bool.false_or]
    have := existsEntry_removeEntries_ne f d (mkdir d fs).1 (fun hx => hne hx.symm)
    simp only [existsEntry] at this
    rw [this]
    have := existsEntry_mkdir_self d fs
    simpa [existsEntry] using this
  have hmk2 : mkdir d ((f, EntryKind.file) :: removeEntries f (mkdir d fs).1)
      = (((f, EntryKind.file) :: removeEntries f (mkdir d fs).1), []) :=
    mkdir_of_exists _ _ hexd
  have hrm2 : removeEntries f ((f, EntryKind.file) :: removeEntries f (mkdir d fs).1)
      = removeEntries f (mkdir d fs).1 := by
    show List.filter _ ((f, EntryKind.file) :: _) = _
    rw [List.filter_cons]
    rw [if_neg (by simp)]
    exact removeEntries_idem f (mkdir d fs).1
  have h2 := tar_one_eq location ignore_pattern path
      ((tar_one location ignore_pattern false (fs, evs) path).1, [])
  refine ⟨by rw [h1], ?_, ?_, ?_⟩
  · rw [hst1]
    unfold countEntries
    rw [List.filter_cons]
    rw [if_pos (by simp)]
    have h0 := countEntries_removeEntries f (mkdir d fs).1
    unfold countEntries at h0
    simp [h0]
  · rw [h2]
    simp only [hst1, hmk2, hexf]
    simp
  · rw [h2]
    simp only [hst1, hmk2]
    rw [hrm2]

/-- C2: end-to-end scenario.  For the three nodes stored at
`/repo/node/24/64/a`, `/repo/node/24/64/b`, `/repo/node/31/02/c` the
resolver yields exactly the two bucket paths `/repo/node/24/64` and
`/repo/node/31/02` (two entries, not three); archiving them into `/dest`
from an empty filesystem derives each archive path from the bucket's last
three path segments and produces exactly the two archive files
`/dest/node/24/64.tar` and `/dest/node/31/02.tar` via exactly two archiver
invocations. -/
theorem C2_end_to_end :
    get_paths_to_tar ["/repo/node/24/64/a", "/repo/node/24/64/b", "/repo/node/31/02/c"]
      = ["/repo/node/24/64", "/repo/node/31/02"]
  ∧ tarFileName "/dest" "/repo/node/24/64" = "/dest/node/24/64.tar"
  ∧ tarFileName "/dest" "/repo/node/31/02" = "/dest/node/31/02.tar"
  ∧ ((tar_paths ["/repo/node/24/64", "/repo/node/31/02"] "/dest" [] false []).1.filter
        (fun e => e.2 == EntryKind.file)).map Prod.fst
      = ["/dest/node/31/02.tar", "/dest/node/24/64.tar"]
  ∧ (tar_paths ["/repo/node/24/64", "/repo/node/31/02"] "/dest" [] false []).2
      = [Ev.mkdirRaw "/dest", Ev.mkdirRaw "/dest/node", Ev.mkdirRaw "/dest/node/24",
         Ev.systemCmd "tar cf /dest/node/24/64.tar -C /repo/node/24 64 ",
         Ev.mkdirRaw "/dest/node/31",
         Ev.systemCmd "tar cf /dest/node/31/02.tar -C /repo/node/31 02 "] := by
  refine ⟨by decide, by decide, by decide, by decide, by decide⟩

/-- C9: selecting zero or more than one of the four selection modes (or
both date flags, which `argparse`'s second mutually exclusive group also
rejects) makes the run exit with the non-zero `argparse` status before
anything happens; and a time-windowed selection (`past_days` given or a
truthy `timestamp`) without `--mtime` or `--ctime` raises the uncaught
`Exception`, again exiting non-zero with no event — in particular no query
execution — and no filesystem change. -/
theorem C9_config_validation (clock : Nat → ℚ) (catalog : Query → List String)
    (readFile : String → List String) (a : Args) (fs : FS) :
    (selCount a ≠ 1 →
      (main_run clock catalog readFile a fs).exitCode ≠ 0
      ∧ (main_run clock catalog readFile a fs).events = []
      ∧ (main_run clock catalog readFile a fs).fs = fs)
  ∧ ((a.past_days.isSome || timestampTruthy a) = true → a.mtime = false →
      a.ctime = false →
      (main_run clock catalog readFile a fs).exitCode ≠ 0
      ∧ (main_run clock catalog readFile a fs).events = []
      ∧ (main_run clock catalog readFile a fs).fs = fs) := by
  constructor
  · intro h
    have h1 : (selCount a == 1) = false := by simpa using h
    simp [main_run, h1]
  · intro hw hm hc
    by_cases hsel : selCount a = 1
    · have h1 : (selCount a == 1) = true := by simpa using hsel
      simp [main_run, h1, hm, hc, hw]
    · have h1 : (selCount a == 1) = false := by simpa using hsel
      simp [main_run, h1]

/-- Witness for C9: a run with no selection mode chosen exits with status 2
and no events; a `past_days` run without a date-field flag exits with
status 1 and no events. -/
theorem C9_config_validation_witness :
    ((main_run (fun _ => 0) (fun _ => []) (fun _ => [])
        { location := "/dest", ignore_files := [], dry_run := false,
          node_ids := none, past_days := none, full := false,
          timestamp := none, mtime := false, ctime := false } []).exitCode ≠ 0
      ∧ (main_run (fun _ => 0) (fun _ => []) (fun _ => [])
        { location := "/dest", ignore_files := [], dry_run := false,
          node_ids := none, past_days := none, full := false,
          timestamp := none, mtime := false, ctime := false } []).events = []
      ∧ (main_run (fun _ => 0) (fun _ => []) (fun _ => [])
        { location := "/dest", ignore_files := [], dry_run := false,
          node_ids := none, past_days := none, full := false,
          timestamp := none, mtime := false, ctime := false } []).fs = [])
  ∧ ((main_run (fun _ => 0) (fun _ => []) (fun _ => [])
        { location := "/dest", ignore_files := [], dry_run := false,
          node_ids := none, past_days := some 5, full := false,
          timestamp := none, mtime := false, ctime := false } []).exitCode ≠ 0
      ∧ (main_run (fun _ => 0) (fun _ => []) (fun _ => [])
        { location := "/dest", ignore_files := [], dry_run := false,
          node_ids := none, past_days := some 5, full := false,
          timestamp := none, mtime := false, ctime := false } []).events = []
      ∧ (main_run (fun _ => 0) (fun _ => []) (fun _ => [])
        { location := "/dest", ignore_files := [], dry_run := false,
          node_ids := none, past_days := some 5, full := false,
          timestamp := none, mtime := false, ctime := false } []).fs = []) :=
  ⟨(C9_config_validation (fun _ => 0) (fun _ => []) (fun _ => [])
      { location := "/dest", ignore_files := [], dry_run := false,
        node_ids := none, past_days := none, full := false,
        timestamp := none, mtime := false, ctime := false } []).1 (by decide),
   (C9_config_validation (fun _ => 0) (fun _ => []) (fun _ => [])
      { location := "/dest", ignore_files := [], dry_run := false,
        node_ids := none, past_days := some 5, full := false,
        timestamp := none, mtime := false, ctime := false } []).2
      (by decide) (by decide) (by decide)⟩

/-- Events the archiver phase (`tar_paths`) can emit: raw directory
creation, archive deletion, archiver invocation — never a time capture, a
query execution or a marker write. -/
def isFsEv : Ev → Bool
  | .mkdirRaw _ => true
  | .removeFile _ => true
  | .systemCmd _ => true
  | _ => false

theorem mkdir_events_isFsEv (d : String) (fs : FS) :
    ∀ e ∈ (mkdir d fs).2, isFsEv e = true := by
  unfold mkdir
  split
  · simp
  · simp [isFsEv]

theorem tar_one_events (location pat : String) (dry : Bool)
    (st : FS × List Ev) (p : String) :
    ∃ extra : List Ev, (tar_one location pat dry st p).2 = st.2 ++ extra
      ∧ ∀ e ∈ extra, isFsEv e = true := by
  cases dry with
  | true => exact ⟨[], by rw [tar_one_dry]; simp, by simp⟩
  | false =>
    refine ⟨(mkdir (tarDirName location p) st.1).2
        ++ (if existsEntry (tarFileName location p) st.1 = true then
              [Ev.removeFile (tarFileName location p)] else [])
        ++ [Ev.systemCmd (tarCmd location pat p)], ?_, ?_⟩
    · rw [tar_one_eq]
      simp [List.append_assoc]
    · intro e he
      simp only [List.mem_append, List.mem_singleton] at he
      rcases he with (h1 | h2) | h3
      · exact mkdir_events_isFsEv _ _ e h1
      · by_cases hc : existsEntry (tarFileName location p) st.1 = true
        · rw [if_pos hc] at h2
          simp only [List.mem_singleton] at h2
          rw [h2]; rfl
        · rw [if_neg hc] at h2
          simp at h2
      · rw [h3]; rfl

theorem foldl_tar_one_events (location pat : String) (dry : Bool) :
    ∀ (ps : List String) (st : FS × List Ev),
      (∀ e ∈ st.2, isFsEv e = true) →
      ∀ e ∈ (ps.foldl (tar_one location pat dry) st).2, isFsEv e = true
  | [], _, h => h
  | p :: ps, st, h => by
    rw [List.foldl_cons]
    apply foldl_tar_one_events location pat dry ps
    obtain ⟨extra, he, hex⟩ := tar_one_events location pat dry st p
    intro e hme
    rw [he] at hme
    rcases List.mem_append.mp hme with hm1 | hm2
    · exact h e hm1
    · exact hex e hm2

theorem tar_paths_events (ps : List String) (location : String) (ign : List String)
    (dry : Bool) (fs : FS) :
    ∀ e ∈ (tar_paths ps location ign dry fs).2, isFsEv e = true := by
  cases dry with
  | true =>
    unfold tar_paths
    rw [if_pos rfl]
    apply foldl_tar_one_events
    simp
  | false =>
    unfold tar_paths
    rw [if_neg (by simp)]
    apply foldl_tar_one_events
    intro e he
    rcases List.mem_append.mp he with h1 | h2
    · exact mkdir_events_isFsEv _ _ e h1
    · exact mkdir_events_isFsEv _ _ e h2

/-- C8: in every timestamp-mode run that completes, the current time is
captured as the very first action — with the run-start clock value, before
the query executes —, the query executes second, every following event up to
the last is an archiver filesystem event, and only then, after the archiver
completes, is the marker file appended with a line carrying the captured
run-start time; the final marker content is exactly the prior lines followed
by that one new line, so no prior line is rewritten or removed. -/
theorem C8_timestamp_ordering (clock : Nat → ℚ) (catalog : Query → List String)
    (readFile : String → List String) (a : Args) (fs : FS)
    (hts : timestampTruthy a = true)
    (hok : (main_run clock catalog readFile a fs).exitCode = 0) :
    ∃ tarEvs : List Ev,
      (main_run clock catalog readFile a fs).events
        = Ev.captureTime (clock 0) :: Ev.queryAll :: tarEvs
            ++ [Ev.markerAppend (markerLine (pyFloatStr (py_mktime (clock 0)))
                  (pyDatetimeStr (clock 0)))]
      ∧ (∀ e ∈ tarEvs, isFsEv e = true)
      ∧ (main_run clock catalog readFile a fs).marker
          = some (readFile (a.timestamp.getD "")
              ++ [markerLine (pyFloatStr (py_mktime (clock 0)))
                    (pyDatetimeStr (clock 0))]) := by
  simp only [main_run, hts, if_true] at hok ⊢
  split at hok
  · simp at hok
  · next h1 =>
    split at hok
    · simp at hok
    · next h2 =>
      split at hok
      · simp at hok
      · next q hq =>
        rw [if_neg h1, if_neg h2]
        refine ⟨(tar_paths (get_paths_to_tar (catalog q)) a.location a.ignore_files
            a.dry_run fs).2, ?_, ?_, ?_⟩
        · simp [List.append_assoc]
        · exact tar_paths_events _ _ _ _ _
        · simp [recordTimestamp]

/-- Witness for C8: a concrete completed timestamp-mode run over one node
path, with the clock fixed at 100, exhibits the capture-query-archive-append
event order and the append-only marker update. -/
theorem C8_timestamp_ordering_witness :
    ∃ tarEvs : List Ev,
      (main_run (fun _ => 100) (fun _ => ["/r/node/aa/bb/u1"]) (fun _ => ["1.5\n"])
        { location := "/dest", ignore_files := [], dry_run := false,
          node_ids := none, past_days := none, full := false,
          timestamp := some "/ts", mtime := true, ctime := false } []).events
        = Ev.captureTime 100 :: Ev.queryAll :: tarEvs
            ++ [Ev.markerAppend (markerLine (pyFloatStr (py_mktime 100))
                  (pyDatetimeStr 100))]
      ∧ (∀ e ∈ tarEvs, isFsEv e = true)
      ∧ (main_run (fun _ => 100) (fun _ => ["/r/node/aa/bb/u1"]) (fun _ => ["1.5\n"])
          { location := "/dest", ignore_files := [], dry_run := false,
            node_ids := none, past_days := none, full := false,
            timestamp := some "/ts", mtime := true, ctime := false } []).marker
          = some (["1.5\n"]
              ++ [markerLine (pyFloatStr (py_mktime 100)) (pyDatetimeStr 100)]) :=
  C8_timestamp_ordering (fun _ => 100) (fun _ => ["/r/node/aa/bb/u1"]) (fun _ => ["1.5\n"])
    { location := "/dest", ignore_files := [], dry_run := false,
      node_ids := none, past_days := none, full := false,
      timestamp := some "/ts", mtime := true, ctime := false } [] (by decide) (by decide)
